import Mathlib

/-!
# Verification of the market-research pipeline (`src/app.py`)

A shallow embedding of the pure control logic of the pipeline functions
`validate_industry`, `generate_queries`, `retrieve_documents`,
`filter_documents` and `generate_report`, together with theorems settling
the specification claims about them.

Modelling conventions:
* The LLM ("Oracle") and the Wikipedia document service are external,
  fallible collaborators.  They are modelled as function parameters
  returning `Except Unit _`; `Except.error ()` models a raised exception.
  Where a function consumes only the Oracle's reply text, the reply string
  itself is the parameter.
* Python strings are modelled as `String`; the relevant Python string
  methods (`strip`, `split`, `splitlines`, `lower`, `upper`, `replace`,
  `startswith`, the `in` substring test, slicing `[:n]`) are embedded as
  the `py*` functions below, operating on the character list.  Whitespace
  is `Char.isWhitespace` (space, tab, CR, LF); line ends are modelled as
  `'\n'`.
* A Python exception escaping a function is `Except.error ()`; Python code
  with no failing operation is total.
-/

set_option maxRecDepth 8000

namespace AppPy

/-! ## Python string primitives -/

/-- Both-ends strip of the characters satisfying `p` (Python `str.strip`). -/
def stripList (p : Char → Bool) (l : List Char) : List Char :=
  (l.rdropWhile p).dropWhile p

/-- Python `s.strip()` (whitespace on both ends). -/
def pyStrip (s : String) : String := ⟨stripList Char.isWhitespace s.toList⟩

/-- The character set of Python `strip("- ")`. -/
def dashSpace (c : Char) : Bool := c = '-' || c = ' '

/-- Python `s.strip("- ")`. -/
def pyStripDashSpace (s : String) : String := ⟨stripList dashSpace s.toList⟩

/-- Python `s.lower()` (ASCII model). -/
def pyLower (s : String) : String := ⟨s.toList.map Char.toLower⟩

/-- Python `s.upper()` (ASCII model). -/
def pyUpper (s : String) : String := ⟨s.toList.map Char.toUpper⟩

/-- Python `s.split(sep)` for a one-character separator: keeps empty parts. -/
def pySplitOn (c : Char) (s : String) : List String :=
  (s.toList.splitOn c).map String.mk

/-- Python `s.split()` with no argument: split on whitespace runs,
dropping empty parts. -/
def pySplitWs (s : String) : List String :=
  ((s.toList.splitOnP Char.isWhitespace).filter (· ≠ [])).map String.mk

/-- Python `s.splitlines()`, for strings whose line ends are `'\n'`. -/
def pyLines (s : String) : List String := pySplitOn '\n' s

/-- Python `s.startswith(pre)`. -/
def pyStartsWith (pre s : String) : Bool := pre.toList.isPrefixOf s.toList

/-- Contiguous-sublist test on character lists (Python `needle in hay`). -/
def listInfixCheck (needle : List Char) : List Char → Bool
  | [] => needle.isEmpty
  | c :: cs => needle.isPrefixOf (c :: cs) || listInfixCheck needle cs

/-- Python substring test `needle in hay`. -/
def pySubstr (needle hay : String) : Bool := listInfixCheck needle.toList hay.toList

/-- Python slicing `s[:n]`. -/
def pyTakeChars (n : Nat) (s : String) : String := ⟨s.toList.take n⟩

/-- Left-to-right, non-overlapping replacement of every occurrence of
`pat` (Python `str.replace`); an empty pattern is never used by the code
and is treated as the identity.  The `fuel` argument makes the recursion
structural; every recursive call strictly shortens the list, so `fuel`
equal to the list length (as used by `pyReplace`) is never exhausted. -/
def replaceFuel (pat rep : List Char) : Nat → List Char → List Char
  | _, [] => []
  | 0, l => l
  | fuel + 1, c :: cs =>
    if pat ≠ [] ∧ pat.isPrefixOf (c :: cs) then
      rep ++ replaceFuel pat rep fuel (cs.drop (pat.length - 1))
    else
      c :: replaceFuel pat rep fuel cs

/-- Python `s.replace(pat, rep)`. -/
def pyReplace (s pat rep : String) : String :=
  ⟨replaceFuel pat.toList rep.toList s.toList.length s.toList⟩

/-! ## `validate_industry` (src/app.py lines 37-79)

The Oracle's reply text is the parameter; `Except.error ()` models the
`IndexError` raised by `classification_raw.split()[0]` on a reply with no
whitespace-delimited token. -/

/-- The reason extracted from a line starting with `INVALID` (line 74):
`line.replace("INVALID", "").replace("-", "").strip()`. -/
def reasonOfLine (line : String) : String :=
  pyStrip (pyReplace (pyReplace line "INVALID" "") "-" "")

/-- The suggestions extracted from a line starting with `SUGGESTIONS:`
(lines 76-77). -/
def suggestionsOfLine (line : String) : List String :=
  (pySplitOn ',' (pyStrip (pyReplace line "SUGGESTIONS:" ""))).map pyStrip

/-- One iteration of the `for line in lines` loop of `validate_industry`
(lines 72-77), on the accumulated `(reason, suggestions)`. -/
def parseStep (acc : String × List String) (line : String) : String × List String :=
  if pyStartsWith "INVALID" line then (reasonOfLine line, acc.2)
  else if pyStartsWith "SUGGESTIONS:" line then (acc.1, suggestionsOfLine line)
  else acc

/-- The `for line in lines` loop of `validate_industry` (lines 72-77). -/
def parseInvalidLines (lines : List String) : String × List String :=
  lines.foldl parseStep ("", [])

/-- `validate_industry`, as a function of the Oracle reply.  Returns
`(accepted, reason, suggestions)`; `classification_raw = pyStrip reply`
is written out at each use. -/
def validate_industry (reply : String) : Except Unit (Bool × String × List String) :=
  match pySplitWs (pyStrip reply) with
  | [] => Except.error ()
  | tok :: _ =>
    if pyUpper tok = "VALID" then Except.ok (true, "", [])
    else Except.ok (false, parseInvalidLines (pyLines (pyStrip reply)))

/-! ## `generate_queries` (src/app.py lines 81-125) -/

/-- `generate_queries`, as a function of the Oracle reply
(`setup_data = pyStrip reply`). -/
def generate_queries (reply : String) : List String :=
  ((pyLines (pyStrip reply)).filter (fun q => pyStartsWith "-" (pyStrip q))).map
    (fun q => pyStrip (pyStripDashSpace q))

/-! ## Documents and `retrieve_documents` (src/app.py lines 127-137)

A retrieved Wikipedia page: `metadata["title"]`, `metadata["source"]`
(the URL) and `page_content`. -/

structure Document where
  title : String
  source : String
  page_content : String
deriving DecidableEq

/-- One assignment `d[k] = v` on a Python dict modelled as an ordered
association list: insertion order of first assignment to a key is kept,
a repeated key overwrites the stored value in place. -/
def dictUpsert (m : List (String × Document)) (k : String) (v : Document) :
    List (String × Document) :=
  if m.any (fun p => p.1 = k) then m.map (fun p => if p.1 = k then (k, v) else p)
  else m ++ [(k, v)]

/-- One document's assignment in the dict comprehension. -/
def dictStep (m : List (String × Document)) (d : Document) : List (String × Document) :=
  dictUpsert m d.title d

/-- The dict comprehension `{doc.metadata["title"]: doc for doc in all_docs}`. -/
def dictOfDocs (docs : List Document) : List (String × Document) :=
  docs.foldl dictStep []

/-- The `for q in queries: all_docs.extend(retriever.invoke(q))` loop.
`retriever.invoke` has no surrounding `try`, so an error on any query
propagates. -/
def collectDocs (retriever : String → Except Unit (List Document)) :
    List String → Except Unit (List Document)
  | [] => Except.ok []
  | q :: qs => do
    let ds ← retriever q
    let rest ← collectDocs retriever qs
    Except.ok (ds ++ rest)

/-- `retrieve_documents`: accumulate all query results, then deduplicate
by title with `list({title: doc ...}.values())`. -/
def retrieve_documents (retriever : String → Except Unit (List Document))
    (queries : List String) : Except Unit (List Document) := do
  let all_docs ← collectDocs retriever queries
  Except.ok ((dictOfDocs all_docs).map Prod.snd)

/-- Lookup of the stored document for title `k` in the association list
modelling the dict. -/
def findA (m : List (String × Document)) (k : String) : Option Document :=
  (m.find? (fun p => p.1 = k)).map Prod.snd

/-- The last document in `docs` whose title is `k`. -/
def lastDocWithTitle (k : String) (docs : List Document) : Option Document :=
  docs.reverse.find? (fun d => d.title = k)

/-- First-seen deduplication of a title sequence, skipping titles already
in `seen`. -/
def fsdAux (seen : List String) : List String → List String
  | [] => []
  | t :: ts => if t ∈ seen then fsdAux seen ts else t :: fsdAux (seen ++ [t]) ts

/-- The title sequence in first-seen order. -/
def firstSeenTitles (l : List String) : List String := fsdAux [] l

/-! ## `filter_documents` (src/app.py lines 139-215) -/

/-- Python `repr` of a list of strings, as interpolated into the bouncer
prompt by `f"...{titles_list}..."` (single-quoted elements). -/
def pyReprStrList (l : List String) : String :=
  let q := String.mk [Char.ofNat 39]
  "[" ++ String.intercalate ", " (l.map (fun t => q ++ t ++ q)) ++ "]"

/-- The `bouncer_prompt` f-string (lines 148-165). -/
def bouncerPrompt (raw_docs : List Document) (user_input : String) : String :=
  "\n    You are a source quality filter for a business market research tool.\n\n  INDUSTRY:\n  \""
    ++ user_input
    ++ "\"\n\n  TASK:\n  From the list below, select only 5 Wikipedia article titles that:\n  - Are relevant and describe the \""
    ++ user_input
    ++ "\" industry as a whole\n  - Are useful for business or market analysis\n\n  RETURN FORMAT:\n  - Return ONLY the exact titles, separated by commas.\n  - Do NOT explain your reasoning.\n\n  CANDIDATE TITLES:\n  "
    ++ pyReprStrList (raw_docs.map Document.title)
    ++ "\n  "

/-- An Oracle reply that echoes back the input documents' titles joined
by commas (for the round-trip claim). -/
def echoTitles (docs : List Document) : String :=
  ⟨List.intercalate [','] (docs.map (fun d => d.title.toList))⟩

/-- `verified_titles` (lines 167-170): split the bouncer reply on commas,
strip and lowercase each fragment. -/
def verifiedTitles (reply : String) : List String :=
  (pySplitOn ',' reply).map (fun t => pyLower (pyStrip t))

/-- Tier-1 keep step (lines 172-175): keep a document if any verdict
fragment is a substring of its lowercased title. -/
def tier1Kept (raw_docs : List Document) (reply : String) : List Document :=
  raw_docs.filter
    (fun d => (verifiedTitles reply).any (fun v => pySubstr v (pyLower d.title)))

/-- Tier-1 dedup (lines 177-187): first occurrence of a title wins.  The
`seen` set of the source is represented by the titles already placed in
the accumulator. -/
def dedupStep (acc : List Document) (d : Document) : List Document :=
  if acc.any (fun x => x.title = d.title) then acc else acc ++ [d]

/-- Tier-1 dedup loop body applied over the kept documents. -/
def dedupFirstByTitle (docs : List Document) : List Document :=
  docs.foldl dedupStep []

/-- The Tier-1 survivors: kept then deduplicated (`final_docs` after line
187). -/
def tier1Survivors (raw_docs : List Document) (reply : String) : List Document :=
  dedupFirstByTitle (tier1Kept raw_docs reply)

/-- The four broadened Tier-2 queries (lines 191-196). -/
def broadQueries (user_input : String) : List String :=
  [user_input, user_input ++ " sector", user_input ++ " services",
    user_input ++ " market"]

/-- Inner Tier-2 loop (lines 204-208): append each retrieved document
whose title is not already present and whose lowercased title contains
the lowercased industry name. -/
def addStep (user_input : String) (acc : List Document) (d : Document) : List Document :=
  if (acc.map Document.title).contains d.title then acc
  else if pySubstr (pyLower user_input) (pyLower d.title) then acc ++ [d]
  else acc

/-- The Tier-2 inner loop applied to one query's retrieved documents. -/
def addMatching (user_input : String) (docs acc : List Document) : List Document :=
  docs.foldl (addStep user_input) acc

/-- Outer Tier-2 loop (lines 199-208): each broad query is retrieved
inside `try`/`except`, a failing query is skipped. -/
def tier2Extend (retriever : String → Except Unit (List Document))
    (user_input : String) : List String → List Document → List Document
  | [], acc => acc
  | q :: qs, acc =>
    match retriever q with
    | Except.error _ => tier2Extend retriever user_input qs acc
    | Except.ok docs => tier2Extend retriever user_input qs (addMatching user_input docs acc)

/-- `final_docs` after the conditional Tier-2 expansion (lines 189-208):
Tier-2 runs only when fewer than five documents survived Tier 1. -/
def tier2Result (raw_docs : List Document) (user_input reply : String)
    (retriever : String → Except Unit (List Document)) : List Document :=
  let t1 := tier1Survivors raw_docs reply
  if t1.length < 5 then tier2Extend retriever user_input (broadQueries user_input) t1
  else t1

/-- The documents Tier 2 appended after the Tier-1 survivors. -/
def tier2Additions (raw_docs : List Document) (user_input reply : String)
    (retriever : String → Except Unit (List Document)) : List Document :=
  (tier2Result raw_docs user_input reply retriever).drop
    (tier1Survivors raw_docs reply).length

/-- `filter_documents`.  The Oracle (`llm.invoke`, not wrapped in `try`)
and the Tier-2 retriever are fallible function parameters. -/
def filter_documents (raw_docs : List Document) (user_input : String)
    (llm : String → Except Unit String)
    (retriever : String → Except Unit (List Document)) :
    Except Unit (List Document) :=
  if raw_docs = [] then Except.ok []
  else
    match llm (bouncerPrompt raw_docs user_input) with
    | Except.error e => Except.error e
    | Except.ok reply =>
      if (tier2Result raw_docs user_input reply retriever).take 5 = [] then Except.ok []
      else Except.ok ((tier2Result raw_docs user_input reply retriever).take 5)

/-! ## `generate_report` (src/app.py lines 217-364) -/

/-- The per-source report metadata dict
`{"#": i, "Title": ..., "URL": ..., "Financial Figures": ...}`. -/
structure SourceRecord where
  idx : Nat
  title : String
  url : String
  figures : String
deriving DecidableEq

/-- The `per_source_prompt` f-string (lines 226-245), as a function of
`doc.page_content[:1500]`. -/
def perSourcePrompt (content : String) : String :=
  "\n        You are a financial data extractor.\n        TASK:\n        Scan the SOURCE CONTENT below and extract ALL explicit financial or market-scale figures.\n        \n        Include: market size, revenue, valuations, growth rates (CAGR), investment amounts, market spending.\n        \n        STRICT RULES:\n        - Extract ONLY figures explicitly stated in the content below.\n        - Do NOT calculate, estimate, or infer.\n        - Every bullet MUST follow this exact format:\n          • [figure] — [what it refers to, in plain English]\n          Example: • US$1.3 billion — Sri Lanka tea industry export revenue in 2021\n          Example: • 8.5% CAGR — projected annual growth rate of the global tea market\n        - Do NOT return bare numbers without context.\n        - If none found, return exactly: \"None\"\n        \n        SOURCE CONTENT:\n        "
    ++ content ++ "\n        "

/-- The figure extraction for one document (lines 246-249): the Oracle
call sits in `try`/`except`, a failure degrades to the `"None"`
sentinel. -/
def figureBlock (llm : String → Except Unit String) (d : Document) : String :=
  match llm (perSourcePrompt (pyTakeChars 1500 d.page_content)) with
  | Except.ok s => pyStrip s
  | Except.error _ => "None"

/-- One `[SOURCE i]` block of `context_text` (lines 258-263). -/
def sourceContext (i : Nat) (d : Document) : String :=
  "[SOURCE " ++ toString i ++ "]\nTITLE: " ++ d.title ++ "\nURL: " ++ d.source
    ++ "\nCONTENT:\n" ++ pyTakeChars 1500 d.page_content ++ "\n\n"

/-- The `for i, doc in enumerate(final_docs, 1)` loop (lines 222-263):
accumulates `context_text` and `sources_info`.  `i` is the 1-based
ordinal of the first document of `docs`. -/
def sourcesLoop (llm : String → Except Unit String) :
    Nat → List Document → String × List SourceRecord
  | _, [] => ("", [])
  | i, d :: ds =>
    let fig := figureBlock llm d
    let rest := sourcesLoop llm (i + 1) ds
    (sourceContext i d ++ rest.1, ⟨i, d.title, d.source, fig⟩ :: rest.2)

/-- `financial_text` (lines 267-270). -/
def financialText (records : List SourceRecord) : String :=
  String.intercalate "\n\n"
    (records.map (fun s =>
      "SOURCE " ++ toString s.idx ++ " — " ++ s.title ++ ":\n" ++ s.figures))

/-- The report prompt (lines 272-356): the `ChatPromptTemplate` text with
`industry`, `context` and `financials` substituted.  The fixed template
text is abridged to its opening and the placeholder positions; the
claims about `generate_report` do not depend on the literal rule text. -/
def reportPrompt (industry context financials : String) : String :=
  "\n    ROLE:\n    You are a Market Research Assistant supporting business analysts at a large corporation.\n\n    OBJECTIVE:\n    Produce a concise, decision-oriented industry briefing that helps a corporate analyst\n    understand the structure, economics, risks, and strategic outlook of the "
    ++ industry
    ++ ".\n\n    STRICT RULES / WRITING STYLE / FORMATTING RULES / REPORT STRUCTURE\n    (fixed instruction text of lines 280-349, mentioning the "
    ++ industry
    ++ ")\n\n    LENGTH:\n    Maximum 500 words.\n\n    CONTEXT:\n    "
    ++ context
    ++ "\n\n    FINANCIAL FIGURES:\n    "
    ++ financials ++ "\n    "

/-- `generate_report`: builds the per-source records and context, then
makes the final (uncaught) Oracle call; returns
`(report text, sources_info, financial_text)`. -/
def generate_report (final_docs : List Document) (user_input : String)
    (llm : String → Except Unit String) :
    Except Unit (String × List SourceRecord × String) :=
  match llm (reportPrompt user_input (sourcesLoop llm 1 final_docs).1
      (financialText (sourcesLoop llm 1 final_docs).2)) with
  | Except.error e => Except.error e
  | Except.ok report =>
    Except.ok (report, (sourcesLoop llm 1 final_docs).2,
      financialText (sourcesLoop llm 1 final_docs).2)

/-! ## Supporting lemmas: string primitives -/

theorem stripList_contig (p : Char → Bool) (l : List Char) : stripList p l <:+: l := by
  have h2 := List.rdropWhile_prefix p l
  exact ((List.dropWhile_suffix p).isInfix).trans h2.isInfix

theorem stripList_twice (p : Char → Bool) (l : List Char) :
    stripList p (stripList p l) = stripList p l := by
  unfold stripList
  set m := (l.rdropWhile p).dropWhile p with hm
  have hr : m.rdropWhile p = m := by
    rw [List.rdropWhile_eq_self_iff]
    intro hne
    obtain ⟨t, ht⟩ := List.dropWhile_suffix (l := l.rdropWhile p) p
    have hrl : l.rdropWhile p ≠ [] := by
      intro h0
      apply hne
      rw [hm, h0]
      rfl
    have hlast := List.rdropWhile_last_not p l hrl
    have h1 : m.getLast? = some (m.getLast hne) := List.getLast?_eq_getLast m hne
    have h2 : (l.rdropWhile p).getLast? = m.getLast? := by
      rw [← ht]
      exact List.getLast?_append_of_ne_nil t hne
    have h3 : (l.rdropWhile p).getLast? = some ((l.rdropWhile p).getLast hrl) :=
      List.getLast?_eq_getLast _ hrl
    have hgl : m.getLast hne = (l.rdropWhile p).getLast hrl :=
      (Option.some.inj (h3.symm.trans (h2.trans h1))).symm
    rw [hgl]
    exact hlast
  rw [hr]
  exact List.dropWhile_idempotent p (l.rdropWhile p)

theorem pyStrip_twice (s : String) : pyStrip (pyStrip s) = pyStrip s :=
  congrArg String.mk (stripList_twice Char.isWhitespace s.toList)

theorem infixCheck_correct (n : List Char) :
    ∀ h : List Char, listInfixCheck n h = true ↔ n <:+: h
  | [] => by
    simp [listInfixCheck, List.isEmpty_iff, List.infix_nil]
  | c :: cs => by
    simp only [listInfixCheck, Bool.or_eq_true, List.isPrefixOf_iff_prefix,
      infixCheck_correct n cs, List.infix_cons_iff]

theorem substr_empty (s : String) : pySubstr "" s = true := by
  rw [pySubstr, infixCheck_correct]
  exact List.nil_infix

theorem splitOn_eq_splitOnP (c : Char) (l : List Char) :
    l.splitOn c = l.splitOnP (fun x => x == c) := rfl

theorem splitOn_sep_append (c : Char) (l2 : List Char) :
    ∀ l1 : List Char, (l1 ++ c :: l2).splitOn c = l1.splitOn c ++ l2.splitOn c := by
  intro l1
  induction l1 with
  | nil =>
    rw [List.nil_append, splitOn_eq_splitOnP, List.splitOnP_cons,
      if_pos (by simp)]
    rfl
  | cons a l1 ih =>
    rw [List.cons_append, splitOn_eq_splitOnP, List.splitOnP_cons,
      show (l1 ++ c :: l2).splitOnP (fun x => x == c) = (l1 ++ c :: l2).splitOn c from rfl,
      ih, splitOn_eq_splitOnP c (a :: l1), List.splitOnP_cons]
    by_cases hac : a = c
    · rw [if_pos (by simp [hac]), if_pos (by simp [hac])]
      rfl
    · rw [if_neg (by simp [hac]), if_neg (by simp [hac])]
      obtain ⟨h, t, hht⟩ := List.exists_cons_of_ne_nil
        (List.splitOnP_ne_nil (fun x => x == c) l1)
      rw [show l1.splitOn c = l1.splitOnP (fun x => x == c) from rfl, hht,
        List.cons_append, List.modifyHead_cons, List.modifyHead_cons,
        List.cons_append]

theorem intercalate_splitOn_flatMap (c : Char) :
    ∀ ls : List (List Char), ls ≠ [] →
      (List.intercalate [c] ls).splitOn c = ls.flatMap (fun l => l.splitOn c)
  | [], h0 => absurd rfl h0
  | [l], _ => by
    simp [List.intercalate]
  | l :: l' :: ls, _ => by
    have hstep : List.intercalate [c] (l :: l' :: ls)
        = l ++ c :: List.intercalate [c] (l' :: ls) := by
      simp [List.intercalate]
    rw [hstep, splitOn_sep_append, List.flatMap_cons,
      intercalate_splitOn_flatMap c (l' :: ls) (by simp)]

theorem splitOn_head_pre (c : Char) :
    ∀ (l h : List Char) (t : List (List Char)), l.splitOn c = h :: t → h <+: l
  | [], h, t, heq => by
    have hh : h = [] := by
      have h2 : ([[]] : List (List Char)) = h :: t := heq
      injection h2 with h1 _
      exact h1.symm
    rw [hh]
  | a :: l, h, t, heq => by
    rw [splitOn_eq_splitOnP, List.splitOnP_cons] at heq
    by_cases hac : a = c
    · rw [if_pos (by simp [hac])] at heq
      injection heq with h1 _
      rw [← h1]
      exact List.nil_prefix
    · rw [if_neg (by simp [hac])] at heq
      obtain ⟨h', t', hht⟩ := List.exists_cons_of_ne_nil
        (List.splitOnP_ne_nil (fun x => x == c) l)
      rw [hht, List.modifyHead_cons] at heq
      injection heq with h1 _
      rw [← h1, List.cons_prefix_cons]
      exact ⟨rfl, splitOn_head_pre c l h' t' hht⟩

theorem substr_strip_lower (t : String) :
    pySubstr (pyLower (pyStrip t)) (pyLower t) = true := by
  rw [pySubstr, infixCheck_correct]
  show (stripList Char.isWhitespace t.toList).map Char.toLower <:+:
    t.toList.map Char.toLower
  exact (stripList_contig Char.isWhitespace t.toList).map Char.toLower

theorem filter_then_map {α β : Type} (p : α → Bool) (f : α → β) (l : List α) :
    (l.filter p).map f = l.filterMap (fun a => if p a then some (f a) else none) := by
  induction l with
  | nil => rfl
  | cons a l ih =>
    by_cases h : p a <;>
      simp [List.filter_cons, List.filterMap_cons, h, ih]

/-! ## Supporting lemmas: accumulating folds -/

theorem foldl_extend_pre {α : Type} (f : List α → α → List α)
    (hf : ∀ acc d, f acc d = acc ∨ f acc d = acc ++ [d]) :
    ∀ (l acc : List α), acc <+: l.foldl f acc
  | [], acc => List.prefix_refl acc
  | d :: ds, acc => by
    have h1 : acc <+: f acc d := by
      rcases hf acc d with h | h
      · rw [h]
      · rw [h]
        exact List.prefix_append acc [d]
    exact h1.trans (foldl_extend_pre f hf ds (f acc d))

theorem dedupStep_extends (acc : List Document) (d : Document) :
    dedupStep acc d = acc ∨ dedupStep acc d = acc ++ [d] := by
  unfold dedupStep
  by_cases h : acc.any (fun x => x.title = d.title) = true
  · left
    rw [if_pos h]
  · right
    rw [if_neg h]

theorem addStep_extends (u : String) (acc : List Document) (d : Document) :
    addStep u acc d = acc ∨ addStep u acc d = acc ++ [d] := by
  unfold addStep
  by_cases h1 : (acc.map Document.title).contains d.title = true
  · left
    rw [if_pos h1]
  · rw [if_neg h1]
    by_cases h2 : pySubstr (pyLower u) (pyLower d.title) = true
    · right
      rw [if_pos h2]
    · left
      rw [if_neg h2]

theorem addMatching_pre (u : String) (docs acc : List Document) :
    acc <+: addMatching u docs acc :=
  foldl_extend_pre (addStep u) (addStep_extends u) docs acc

theorem tier2Extend_pre (retr : String → Except Unit (List Document)) (u : String) :
    ∀ (qs : List String) (acc : List Document), acc <+: tier2Extend retr u qs acc
  | [], acc => List.prefix_refl acc
  | q :: qs, acc => by
    unfold tier2Extend
    cases retr q with
    | error e => exact tier2Extend_pre retr u qs acc
    | ok docs =>
      exact (addMatching_pre u docs acc).trans
        (tier2Extend_pre retr u qs (addMatching u docs acc))

theorem tier1Survivors_pre (raw : List Document) (u reply : String)
    (retr : String → Except Unit (List Document)) :
    tier1Survivors raw reply <+: tier2Result raw u reply retr := by
  unfold tier2Result
  by_cases h : (tier1Survivors raw reply).length < 5
  · simp only [h, if_true]
    exact tier2Extend_pre retr u (broadQueries u) (tier1Survivors raw reply)
  · simp [h]

/-! ## Supporting lemmas: Tier-1 dedup -/

theorem dedupFold_all_new (l : List Document) :
    ∀ acc : List Document,
      (∀ d ∈ l, ∀ a ∈ acc, a.title ≠ d.title) →
      (l.map Document.title).Nodup →
      l.foldl dedupStep acc = acc ++ l := by
  induction l with
  | nil =>
    intro acc _ _
    simp
  | cons d ds ih =>
    intro acc hnew hnd
    rw [List.foldl_cons]
    have hany : acc.any (fun x => x.title = d.title) = false := by
      rw [List.any_eq_false]
      intro a ha
      simpa using hnew d (List.mem_cons_self d ds) a ha
    have hstep : dedupStep acc d = acc ++ [d] := by
      unfold dedupStep
      rw [hany]
      simp
    rw [hstep]
    rw [List.map_cons, List.nodup_cons] at hnd
    have hnew' : ∀ d' ∈ ds, ∀ a ∈ acc ++ [d], a.title ≠ d'.title := by
      intro d' hd' a ha
      rcases List.mem_append.mp ha with h | h
      · exact hnew d' (List.mem_cons_of_mem d hd') a h
      · have ha' : a = d := by simpa using h
        subst ha'
        intro heq
        exact hnd.1 (by rw [heq]; exact List.mem_map_of_mem Document.title hd')
    rw [ih (acc ++ [d]) hnew' hnd.2, List.append_assoc]
    rfl

theorem dedupFirst_of_nodup (l : List Document)
    (h : (l.map Document.title).Nodup) : dedupFirstByTitle l = l := by
  unfold dedupFirstByTitle
  have hvac : ∀ d ∈ l, ∀ a ∈ ([] : List Document), a.title ≠ d.title := by
    intro d _ a ha
    exact absurd ha (List.not_mem_nil a)
  rw [dedupFold_all_new l [] hvac h]
  rfl

theorem dedupFirst_take_five (l : List Document) (hlen : 5 ≤ l.length)
    (hnd : ((l.take 5).map Document.title).Nodup) :
    (dedupFirstByTitle l).take 5 = l.take 5 ∧ 5 ≤ (dedupFirstByTitle l).length := by
  have hbase : List.foldl dedupStep [] (l.take 5) = l.take 5 := by
    have hvac : ∀ d ∈ l.take 5, ∀ a ∈ ([] : List Document), a.title ≠ d.title := by
      intro d _ a ha
      exact absurd ha (List.not_mem_nil a)
    rw [dedupFold_all_new (l.take 5) [] hvac hnd]
    rfl
  have hfold : dedupFirstByTitle l = List.foldl dedupStep (l.take 5) (l.drop 5) := by
    unfold dedupFirstByTitle
    conv_lhs => rw [← List.take_append_drop 5 l]
    rw [List.foldl_append, hbase]
  have hpre : l.take 5 <+: dedupFirstByTitle l := by
    rw [hfold]
    exact foldl_extend_pre dedupStep dedupStep_extends (l.drop 5) (l.take 5)
  obtain ⟨x, hx⟩ := hpre
  have hlt : (l.take 5).length = 5 := by
    rw [List.length_take]
    exact Nat.min_eq_left hlen
  constructor
  · rw [← hx]
    exact List.take_left' hlt
  · rw [← hx, List.length_append, hlt]
    omega

/-! ## Supporting lemmas: the validator's line loop -/

theorem startsWith_excl (l : String) :
    ¬(pyStartsWith "INVALID" l = true ∧ pyStartsWith "SUGGESTIONS:" l = true) := by
  rintro ⟨h1, h2⟩
  rw [pyStartsWith, List.isPrefixOf_iff_prefix] at h1 h2
  obtain ⟨t1, ht1⟩ := h1
  obtain ⟨t2, ht2⟩ := h2
  have e1 : l.toList.head? = some 'I' := by
    rw [← ht1]
    rfl
  have e2 : l.toList.head? = some 'S' := by
    rw [← ht2]
    rfl
  have : ('I' : Char) = 'S' := Option.some.inj (e1.symm.trans e2)
  exact absurd this (by decide)

theorem parseFold_none (lines : List String) :
    ∀ acc : String × List String,
      lines.filter (pyStartsWith "INVALID") = [] →
      lines.filter (pyStartsWith "SUGGESTIONS:") = [] →
      lines.foldl parseStep acc = acc := by
  induction lines with
  | nil =>
    intro acc _ _
    rfl
  | cons h rest ih =>
    intro acc hI hS
    rw [List.filter_cons] at hI hS
    by_cases hIh : pyStartsWith "INVALID" h = true
    · rw [if_pos hIh] at hI
      exact absurd hI (List.cons_ne_nil _ _)
    · by_cases hSh : pyStartsWith "SUGGESTIONS:" h = true
      · rw [if_pos hSh] at hS
        exact absurd hS (List.cons_ne_nil _ _)
      · rw [if_neg hIh] at hI
        rw [if_neg hSh] at hS
        rw [List.foldl_cons]
        have hstep : parseStep acc h = acc := by
          unfold parseStep
          rw [if_neg hIh, if_neg hSh]
        rw [hstep]
        exact ih acc hI hS

theorem parseFold_sugg (lines : List String) :
    ∀ (acc : String × List String) (lineS : String),
      lines.filter (pyStartsWith "INVALID") = [] →
      lines.filter (pyStartsWith "SUGGESTIONS:") = [lineS] →
      lines.foldl parseStep acc = (acc.1, suggestionsOfLine lineS) := by
  induction lines with
  | nil =>
    intro acc lineS _ hS
    exact absurd hS (by simp)
  | cons h rest ih =>
    intro acc lineS hI hS
    rw [List.filter_cons] at hI hS
    by_cases hIh : pyStartsWith "INVALID" h = true
    · rw [if_pos hIh] at hI
      exact absurd hI (List.cons_ne_nil _ _)
    · rw [if_neg hIh] at hI
      by_cases hSh : pyStartsWith "SUGGESTIONS:" h = true
      · rw [if_pos hSh] at hS
        obtain ⟨hhl, hrest⟩ : h = lineS ∧ rest.filter (pyStartsWith "SUGGESTIONS:") = [] :=
          ⟨(List.cons.injEq _ _ _ _ ▸ hS).1, (List.cons.injEq _ _ _ _ ▸ hS).2⟩
        rw [List.foldl_cons]
        have hstep : parseStep acc h = (acc.1, suggestionsOfLine h) := by
          unfold parseStep
          rw [if_neg hIh, if_pos hSh]
        rw [hstep, parseFold_none rest _ hI hrest, hhl]
      · rw [if_neg hSh] at hS
        rw [List.foldl_cons]
        have hstep : parseStep acc h = acc := by
          unfold parseStep
          rw [if_neg hIh, if_neg hSh]
        rw [hstep]
        exact ih acc lineS hI hS

theorem parseFold_inv (lines : List String) :
    ∀ (acc : String × List String) (lineI : String),
      lines.filter (pyStartsWith "INVALID") = [lineI] →
      lines.filter (pyStartsWith "SUGGESTIONS:") = [] →
      lines.foldl parseStep acc = (reasonOfLine lineI, acc.2) := by
  induction lines with
  | nil =>
    intro acc lineI hI _
    exact absurd hI (by simp)
  | cons h rest ih =>
    intro acc lineI hI hS
    rw [List.filter_cons] at hI hS
    by_cases hIh : pyStartsWith "INVALID" h = true
    · rw [if_pos hIh] at hI
      obtain ⟨hhl, hrest⟩ : h = lineI ∧ rest.filter (pyStartsWith "INVALID") = [] :=
        ⟨(List.cons.injEq _ _ _ _ ▸ hI).1, (List.cons.injEq _ _ _ _ ▸ hI).2⟩
      have hSh : ¬pyStartsWith "SUGGESTIONS:" h = true := fun hc =>
        startsWith_excl h ⟨hIh, hc⟩
      rw [if_neg hSh] at hS
      rw [List.foldl_cons]
      have hstep : parseStep acc h = (reasonOfLine h, acc.2) := by
        unfold parseStep
        rw [if_pos hIh]
      rw [hstep, parseFold_none rest _ hrest hS, hhl]
    · rw [if_neg hIh] at hI
      by_cases hSh : pyStartsWith "SUGGESTIONS:" h = true
      · rw [if_pos hSh] at hS
        exact absurd hS (List.cons_ne_nil _ _)
      · rw [if_neg hSh] at hS
        rw [List.foldl_cons]
        have hstep : parseStep acc h = acc := by
          unfold parseStep
          rw [if_neg hIh, if_neg hSh]
        rw [hstep]
        exact ih acc lineI hI hS

theorem parseFold_both (lines : List String) :
    ∀ (acc : String × List String) (lineI lineS : String),
      lines.filter (pyStartsWith "INVALID") = [lineI] →
      lines.filter (pyStartsWith "SUGGESTIONS:") = [lineS] →
      lines.foldl parseStep acc = (reasonOfLine lineI, suggestionsOfLine lineS) := by
  induction lines with
  | nil =>
    intro acc lineI lineS hI _
    exact absurd hI (by simp)
  | cons h rest ih =>
    intro acc lineI lineS hI hS
    rw [List.filter_cons] at hI hS
    by_cases hIh : pyStartsWith "INVALID" h = true
    · rw [if_pos hIh] at hI
      obtain ⟨hhl, hrest⟩ : h = lineI ∧ rest.filter (pyStartsWith "INVALID") = [] :=
        ⟨(List.cons.injEq _ _ _ _ ▸ hI).1, (List.cons.injEq _ _ _ _ ▸ hI).2⟩
      have hSh : ¬pyStartsWith "SUGGESTIONS:" h = true := fun hc =>
        startsWith_excl h ⟨hIh, hc⟩
      rw [if_neg hSh] at hS
      rw [List.foldl_cons]
      have hstep : parseStep acc h = (reasonOfLine h, acc.2) := by
        unfold parseStep
        rw [if_pos hIh]
      rw [hstep, parseFold_sugg rest _ lineS hrest hS, hhl]
    · rw [if_neg hIh] at hI
      by_cases hSh : pyStartsWith "SUGGESTIONS:" h = true
      · rw [if_pos hSh] at hS
        obtain ⟨hhl, hrest⟩ : h = lineS ∧ rest.filter (pyStartsWith "SUGGESTIONS:") = [] :=
          ⟨(List.cons.injEq _ _ _ _ ▸ hS).1, (List.cons.injEq _ _ _ _ ▸ hS).2⟩
        rw [List.foldl_cons]
        have hstep : parseStep acc h = (acc.1, suggestionsOfLine h) := by
          unfold parseStep
          rw [if_neg hIh, if_pos hSh]
        rw [hstep, parseFold_inv rest _ lineI hI hrest, hhl]
      · rw [if_neg hSh] at hS
        rw [List.foldl_cons]
        have hstep : parseStep acc h = acc := by
          unfold parseStep
          rw [if_neg hIh, if_neg hSh]
        rw [hstep]
        exact ih acc lineI lineS hI hS

/-! ## Supporting lemmas: the title dict of `retrieve_documents` -/

theorem dictFold_entry_title (docs : List Document) :
    ∀ m : List (String × Document),
      (∀ p ∈ m, (Prod.snd p).title = p.1) →
      ∀ p ∈ docs.foldl dictStep m, (Prod.snd p).title = p.1 := by
  induction docs with
  | nil =>
    intro m hm
    exact hm
  | cons d ds ih =>
    intro m hm
    rw [List.foldl_cons]
    apply ih
    intro p hp
    unfold dictStep dictUpsert at hp
    by_cases hAny : m.any (fun q => q.1 = d.title) = true
    · rw [if_pos hAny] at hp
      obtain ⟨q, hq, hgq⟩ := List.mem_map.mp hp
      by_cases hq1 : q.1 = d.title
      · rw [if_pos hq1] at hgq
        rw [← hgq]
      · rw [if_neg hq1] at hgq
        rw [← hgq]
        exact hm q hq
    · rw [if_neg hAny] at hp
      rcases List.mem_append.mp hp with h | h
      · exact hm p h
      · have hpd : p = (d.title, d) := by simpa using h
        rw [hpd]

theorem dictUpsert_keys_mem (m : List (String × Document)) (k : String) (v : Document)
    (h : m.any (fun p => p.1 = k) = true) :
    (dictUpsert m k v).map Prod.fst = m.map Prod.fst := by
  unfold dictUpsert
  rw [if_pos h, List.map_map]
  apply List.map_congr_left
  intro p _
  by_cases hp : p.1 = k
  · simp only [Function.comp_apply, if_pos hp]
    exact hp.symm
  · simp only [Function.comp_apply, if_neg hp]

theorem dictUpsert_keys_new (m : List (String × Document)) (k : String) (v : Document)
    (h : m.any (fun p => p.1 = k) = false) :
    (dictUpsert m k v).map Prod.fst = m.map Prod.fst ++ [k] := by
  unfold dictUpsert
  rw [h]
  simp

theorem dictFold_keys (docs : List Document) :
    ∀ m : List (String × Document),
      (docs.foldl dictStep m).map Prod.fst
        = m.map Prod.fst ++ fsdAux (m.map Prod.fst) (docs.map Document.title) := by
  induction docs with
  | nil =>
    intro m
    simp [fsdAux]
  | cons d ds ih =>
    intro m
    rw [List.foldl_cons, ih (dictStep m d), List.map_cons]
    by_cases hmem : d.title ∈ m.map Prod.fst
    · have hAny : m.any (fun p => p.1 = d.title) = true := by
        rw [List.any_eq_true]
        obtain ⟨p, hp, hfst⟩ := List.mem_map.mp hmem
        exact ⟨p, hp, by simp [hfst]⟩
      unfold dictStep
      rw [dictUpsert_keys_mem m d.title d hAny]
      conv_rhs => rw [fsdAux]
      rw [if_pos hmem]
    · have hAny : m.any (fun p => p.1 = d.title) = false := by
        rw [List.any_eq_false]
        intro p hp
        simp only [decide_eq_true_eq]
        intro hfst
        exact hmem (by rw [← hfst]; exact List.mem_map_of_mem Prod.fst hp)
      unfold dictStep
      rw [dictUpsert_keys_new m d.title d hAny]
      conv_rhs => rw [fsdAux]
      rw [if_neg hmem, List.append_assoc]
      rfl

theorem fsdAux_nodup (l : List String) :
    ∀ seen : List String, (fsdAux seen l).Nodup ∧ ∀ x ∈ fsdAux seen l, x ∉ seen := by
  induction l with
  | nil =>
    intro seen
    simp [fsdAux]
  | cons t ts ih =>
    intro seen
    simp only [fsdAux]
    by_cases ht : t ∈ seen
    · rw [if_pos ht]
      exact ih seen
    · rw [if_neg ht]
      refine ⟨List.nodup_cons.mpr ⟨?_, (ih (seen ++ [t])).1⟩, ?_⟩
      · intro hc
        exact (ih (seen ++ [t])).2 t hc (by simp)
      · intro x hx
        rcases List.mem_cons.mp hx with h | h
        · rw [h]
          exact ht
        · intro hxs
          exact (ih (seen ++ [t])).2 x h (by simp [hxs])

theorem findA_upsert (m : List (String × Document)) (k' : String) (v : Document)
    (k : String) :
    findA (dictUpsert m k' v) k = if k = k' then some v else findA m k := by
  unfold findA dictUpsert
  by_cases hk : k = k'
  · subst hk
    rw [if_pos rfl]
    by_cases hAny : m.any (fun p => p.1 = k) = true
    · rw [if_pos hAny, List.find?_map]
      have hfun : ((fun p : String × Document => decide (p.1 = k)) ∘
          (fun p : String × Document => if p.1 = k then (k, v) else p))
          = fun p : String × Document => decide (p.1 = k) := by
        funext p
        by_cases hp : p.1 = k
        · simp [Function.comp_apply, hp]
        · simp [Function.comp_apply, hp]
      rw [hfun]
      obtain ⟨x, hx, hpx⟩ := List.any_eq_true.mp hAny
      have hsome : (List.find? (fun p : String × Document => decide (p.1 = k)) m).isSome
          = true := List.find?_isSome.mpr ⟨x, hx, hpx⟩
      obtain ⟨p0, hp0⟩ := Option.isSome_iff_exists.mp hsome
      rw [hp0]
      have hp01 : p0.1 = k := by simpa using List.find?_some hp0
      simp [hp01]
    · rw [if_neg hAny, List.find?_append]
      have hnone : List.find? (fun p : String × Document => decide (p.1 = k)) m = none := by
        rw [List.find?_eq_none]
        intro x hx
        exact fun hc => hAny (List.any_eq_true.mpr ⟨x, hx, hc⟩)
      rw [hnone, Option.none_or]
      simp
  · rw [if_neg hk]
    by_cases hAny : m.any (fun p => p.1 = k') = true
    · rw [if_pos hAny, List.find?_map]
      have hfun : ((fun p : String × Document => decide (p.1 = k)) ∘
          (fun p : String × Document => if p.1 = k' then (k', v) else p))
          = fun p : String × Document => decide (p.1 = k) := by
        funext p
        by_cases hp : p.1 = k'
        · simp [Function.comp_apply, hp]
        · simp [Function.comp_apply, hp]
      rw [hfun]
      cases hfind : List.find? (fun p : String × Document => decide (p.1 = k)) m with
      | none => simp
      | some p0 =>
        have hp0k : p0.1 = k := by simpa using List.find?_some hfind
        have hid : (if p0.1 = k' then (k', v) else p0) = p0 := by
          rw [if_neg]
          intro hc
          rw [hp0k] at hc
          exact hk hc
        simp [hid]
    · rw [if_neg hAny, List.find?_append]
      have h1 : List.find? (fun p : String × Document => decide (p.1 = k)) [(k', v)]
          = none := by
        have : ¬(k' = k) := fun h => hk h.symm
        simp [this]
      rw [h1, Option.or_none]

theorem findA_dictFold (docs : List Document) :
    ∀ (m : List (String × Document)) (k : String),
      findA (docs.foldl dictStep m) k = (lastDocWithTitle k docs).or (findA m k) := by
  induction docs with
  | nil =>
    intro m k
    rw [lastDocWithTitle]
    simp [Option.none_or]
  | cons d ds ih =>
    intro m k
    rw [List.foldl_cons, ih (dictStep m d) k]
    unfold dictStep
    rw [findA_upsert]
    unfold lastDocWithTitle
    rw [List.reverse_cons, List.find?_append, Option.or_assoc]
    congr 1
    by_cases hd : d.title = k
    · rw [if_pos hd.symm]
      have hfd : List.find? (fun x : Document => decide (x.title = k)) [d] = some d := by
        simp [hd]
      rw [hfd]
      rfl
    · rw [if_neg (fun hc => hd hc.symm)]
      have hfd : List.find? (fun x : Document => decide (x.title = k)) [d] = none := by
        simp [hd]
      rw [hfd, Option.none_or]

theorem findA_of_mem (k : String) (v : Document) :
    ∀ m : List (String × Document),
      (m.map Prod.fst).Nodup → (k, v) ∈ m → findA m k = some v := by
  intro m
  induction m with
  | nil =>
    intro _ hmem
    cases hmem
  | cons p ps ih =>
    intro hnd hmem
    rw [List.map_cons, List.nodup_cons] at hnd
    rcases List.mem_cons.mp hmem with h | h
    · unfold findA
      rw [List.find?_cons]
      have hpk : decide (p.1 = k) = true := by
        rw [← h]
        simp
      rw [hpk]
      simp [← h]
    · have hkps : k ∈ ps.map Prod.fst := by
        rw [List.mem_map]
        exact ⟨(k, v), h, rfl⟩
      have hp1 : decide (p.1 = k) = false := by
        simp only [decide_eq_false_iff_not]
        intro hc
        exact hnd.1 (hc ▸ hkps)
      unfold findA
      rw [List.find?_cons, hp1]
      exact ih hnd.2 h

theorem collectDocs_error (retr : String → Except Unit (List Document)) :
    ∀ qs : List String, (∃ q ∈ qs, retr q = Except.error ()) →
      collectDocs retr qs = Except.error () := by
  intro qs
  induction qs with
  | nil =>
    intro h
    obtain ⟨q, hq, _⟩ := h
    cases hq
  | cons q' qs ih =>
    intro h
    obtain ⟨q, hq, herr⟩ := h
    rcases List.mem_cons.mp hq with rfl | htail
    · unfold collectDocs
      rw [herr]
      rfl
    · unfold collectDocs
      cases hq' : retr q' with
      | error e => rfl
      | ok ds =>
        rw [ih ⟨q, htail, herr⟩]
        rfl

/-! ## Claims -/

/-- Claim C1, counterexample: a document service that raises on the first
query and returns a document on the second makes `retrieve_documents`
raise; the second query's document is not part of any output, refuting
"the remaining queries are still executed and the documents they return
are included in the output". -/
theorem c1_counterexample :
    retrieve_documents
      (fun q => if q = "a" then Except.error () else Except.ok [⟨"B", "u", "c"⟩])
      ["a", "b"] = Except.error () := rfl

/-- Claim C1, amended: `retrieve_documents` has no `try`/`except` around
the per-query document-service call, so if the call raises for any query
of the input, the whole retrieval aborts with that error and no documents
are returned. -/
theorem retrieve_documents_aborts (retr : String → Except Unit (List Document))
    (qs : List String) (h : ∃ q ∈ qs, retr q = Except.error ()) :
    retrieve_documents retr qs = Except.error () := by
  unfold retrieve_documents
  rw [collectDocs_error retr qs h]
  rfl

/-- Witness for `retrieve_documents_aborts`. -/
theorem retrieve_documents_aborts_witness :
    retrieve_documents (fun q => if q = "x" then Except.error () else Except.ok [])
      ["x", "y"] = Except.error () :=
  retrieve_documents_aborts _ ["x", "y"] ⟨"x", by decide, rfl⟩

/-- Claim C2, counterexample: on the empty reply,
`classification_raw.split()[0]` raises `IndexError` instead of returning;
and on the reply `"valid"`, whose first token is not exactly `VALID`, the
accept flag is `true` (the code uppercases the token before comparing),
not `false`. -/
theorem c2_counterexample :
    validate_industry "" = Except.error () ∧
      validate_industry "valid" = Except.ok (true, "", []) :=
  ⟨rfl, rfl⟩

/-- Claim C2, amended: on a reply with no whitespace-delimited token
(empty or whitespace-only), `validate_industry` raises `IndexError`; on
any other reply it returns without raising, and the accept flag is `true`
exactly when the uppercased first whitespace-delimited token equals
`VALID` (a case-insensitive match), regardless of any following text. -/
theorem validate_industry_amended (reply : String) :
    (pySplitWs (pyStrip reply) = [] → validate_industry reply = Except.error ()) ∧
    (∀ tok rest, pySplitWs (pyStrip reply) = tok :: rest →
      ∃ reason suggestions, validate_industry reply
        = Except.ok (decide (pyUpper tok = "VALID"), reason, suggestions)) := by
  constructor
  · intro h
    unfold validate_industry
    rw [h]
  · intro tok rest h
    unfold validate_industry
    rw [h]
    by_cases hv : pyUpper tok = "VALID"
    · refine ⟨"", [], ?_⟩
      show (if pyUpper tok = "VALID" then Except.ok (true, "", [])
        else Except.ok (false, parseInvalidLines (pyLines (pyStrip reply)))) = _
      rw [if_pos hv]
      simp [hv]
    · refine ⟨(parseInvalidLines (pyLines (pyStrip reply))).1,
        (parseInvalidLines (pyLines (pyStrip reply))).2, ?_⟩
      show (if pyUpper tok = "VALID" then Except.ok (true, "", [])
        else Except.ok (false, parseInvalidLines (pyLines (pyStrip reply)))) = _
      rw [if_neg hv]
      simp [hv]

/-- Witness for `validate_industry_amended`. -/
theorem validate_industry_amended_witness :
    ∃ reason suggestions, validate_industry "VALID ok"
      = Except.ok (decide (pyUpper "VALID" = "VALID"), reason, suggestions) :=
  (validate_industry_amended "VALID ok").2 "VALID" ["ok"] (by decide)

/-- Claim C3, counterexample: `line.replace("-", "")` removes every
hyphen, including interior hyphens of the reason text: the reply line
`INVALID - Not business-related` yields the reason
`Not businessrelated`, not `Not business-related`. -/
theorem c3_counterexample :
    validate_industry "NO\nINVALID - Not business-related\nSUGGESTIONS: a, b"
        = Except.ok (false, "Not businessrelated", ["a", "b"]) ∧
      ("Not businessrelated" : String) ≠ "Not business-related" :=
  ⟨rfl, by decide⟩

/-- Claim C3, amended: on a reply whose first token is not (case
insensitively) `VALID` and whose lines contain exactly one line starting
with `INVALID` and exactly one starting with `SUGGESTIONS:`, the returned
reason is that `INVALID` line with every occurrence of `INVALID` and
every dash character removed (interior hyphens included) and whitespace
stripped, and the suggestions are the `SUGGESTIONS:` line with the prefix
removed, stripped, split on commas, each element stripped, in order. -/
theorem validate_industry_invalid_lines (reply tok : String) (rest : List String)
    (lineI lineS : String)
    (htok : pySplitWs (pyStrip reply) = tok :: rest)
    (hnv : ¬pyUpper tok = "VALID")
    (hI : (pyLines (pyStrip reply)).filter (pyStartsWith "INVALID") = [lineI])
    (hS : (pyLines (pyStrip reply)).filter (pyStartsWith "SUGGESTIONS:") = [lineS]) :
    validate_industry reply
      = Except.ok (false, reasonOfLine lineI, suggestionsOfLine lineS) := by
  unfold validate_industry
  rw [htok]
  show (if pyUpper tok = "VALID" then Except.ok (true, "", [])
    else Except.ok (false, parseInvalidLines (pyLines (pyStrip reply)))) = _
  rw [if_neg hnv]
  unfold parseInvalidLines
  rw [parseFold_both (pyLines (pyStrip reply)) ("", []) lineI lineS hI hS]

/-- Witness for `validate_industry_invalid_lines`. -/
theorem validate_industry_invalid_lines_witness :
    validate_industry "no\nINVALID - bad\nSUGGESTIONS: x, y"
      = Except.ok (false, reasonOfLine "INVALID - bad",
          suggestionsOfLine "SUGGESTIONS: x, y") :=
  validate_industry_invalid_lines _ "no" ["INVALID", "-", "bad", "SUGGESTIONS:", "x,", "y"]
    "INVALID - bad" "SUGGESTIONS: x, y" (by decide) (by decide) (by decide) (by decide)

/-- Claim C5, counterexample: the reply `"-"` produces the element `""`,
which is empty after trimming; and the reply `"-\t- tea"` produces the
element `"- tea"`, which begins with a dash (`strip("- ")` stops at the
tab, and the subsequent `strip()` re-exposes the inner dash). -/
theorem c5_counterexample :
    generate_queries "-" = [""] ∧ generate_queries "-\t- tea" = ["- tea"] :=
  ⟨by decide, by decide⟩

/-- Claim C5, amended: the elements of `generate_queries` are exactly the
stripped reply's lines whose trimmed form starts with a dash, in order,
each with ALL leading and trailing dash and space characters stripped and
then whitespace-trimmed; every element is whitespace-trimmed, but an
element may be empty (a line consisting only of dashes and spaces) and
may begin with a dash (when a tab separates dashes). -/
theorem generate_queries_amended (reply : String) :
    generate_queries reply
      = (pyLines (pyStrip reply)).filterMap
          (fun q => if pyStartsWith "-" (pyStrip q) then
            some (pyStrip (pyStripDashSpace q)) else none) ∧
    ∀ x ∈ generate_queries reply, pyStrip x = x := by
  constructor
  · unfold generate_queries
    exact filter_then_map _ _ _
  · intro x hx
    unfold generate_queries at hx
    obtain ⟨q, _, hqx⟩ := List.mem_map.mp hx
    rw [← hqx]
    exact pyStrip_twice _

/-- Witness for `generate_queries_amended`. -/
theorem generate_queries_amended_witness :
    generate_queries "- a"
        = (pyLines (pyStrip "- a")).filterMap
            (fun q => if pyStartsWith "-" (pyStrip q) then
              some (pyStrip (pyStripDashSpace q)) else none) ∧
      pyStrip "a" = "a" :=
  ⟨(generate_queries_amended "- a").1,
    (generate_queries_amended "- a").2 "a" (by decide)⟩

/-- Claim C7: on an empty document collection `filter_documents` returns
the empty collection immediately, without raising and with the same
result for every Oracle function and every retriever (in particular for
always-failing ones): no Oracle call is consulted. -/
theorem filter_documents_on_empty (u : String) (llm : String → Except Unit String)
    (retr : String → Except Unit (List Document)) :
    filter_documents [] u llm retr = Except.ok [] := rfl

/-- Claim C4: whenever the query loop succeeds with accumulated documents
`allDocs`, the output of `retrieve_documents` is the dict dedup of
`allDocs`; no two output entries share a title, the entry kept for each
title is the last document retrieved with that title, and the output
order is the first-seen order of titles. -/
theorem retrieve_documents_dedup (retr : String → Except Unit (List Document))
    (qs : List String) (allDocs : List Document)
    (hcoll : collectDocs retr qs = Except.ok allDocs) :
    retrieve_documents retr qs = Except.ok ((dictOfDocs allDocs).map Prod.snd) ∧
    (((dictOfDocs allDocs).map Prod.snd).map Document.title).Nodup ∧
    (∀ d ∈ (dictOfDocs allDocs).map Prod.snd,
      lastDocWithTitle d.title allDocs = some d) ∧
    ((dictOfDocs allDocs).map Prod.snd).map Document.title
      = firstSeenTitles (allDocs.map Document.title) := by
  have hentry : ∀ p ∈ dictOfDocs allDocs, (Prod.snd p).title = p.1 :=
    dictFold_entry_title allDocs [] (by intro p hp; cases hp)
  have htk : ((dictOfDocs allDocs).map Prod.snd).map Document.title
      = (dictOfDocs allDocs).map Prod.fst := by
    rw [List.map_map]
    exact List.map_congr_left (fun p hp => hentry p hp)
  have hkeys : (dictOfDocs allDocs).map Prod.fst
      = firstSeenTitles (allDocs.map Document.title) := by
    have h := dictFold_keys allDocs []
    simpa [dictOfDocs, firstSeenTitles] using h
  refine ⟨?_, ?_, ?_, ?_⟩
  · unfold retrieve_documents
    rw [hcoll]
    rfl
  · rw [htk, hkeys]
    exact (fsdAux_nodup (allDocs.map Document.title) []).1
  · intro d hd
    obtain ⟨p, hp, hps⟩ := List.mem_map.mp hd
    have hp1 : p.1 = d.title := by
      rw [← hps]
      exact (hentry p hp).symm
    have hpd : p = (d.title, d) := by
      obtain ⟨a, b⟩ := p
      simp only at hps hp1
      rw [hps, hp1]
    have hmem' : (d.title, d) ∈ dictOfDocs allDocs := hpd ▸ hp
    have hnodup : ((dictOfDocs allDocs).map Prod.fst).Nodup := by
      rw [hkeys]
      exact (fsdAux_nodup (allDocs.map Document.title) []).1
    have hfind := findA_of_mem d.title d (dictOfDocs allDocs) hnodup hmem'
    have hfold := findA_dictFold allDocs [] d.title
    rw [show (allDocs.foldl dictStep []) = dictOfDocs allDocs from rfl, hfind,
      show findA [] d.title = none from rfl, Option.or_none] at hfold
    exact hfold.symm
  · rw [htk, hkeys]

/-- Witness for `retrieve_documents_dedup`: two queries whose results
share the title `T`. -/
theorem retrieve_documents_dedup_witness :
    retrieve_documents
        (fun q => if q = "q1" then Except.ok [⟨"T", "u1", "c1"⟩, ⟨"S", "u", "c"⟩]
          else Except.ok [⟨"T", "u2", "c2"⟩]) ["q1", "q2"]
      = Except.ok ((dictOfDocs [⟨"T", "u1", "c1"⟩, ⟨"S", "u", "c"⟩,
          ⟨"T", "u2", "c2"⟩]).map Prod.snd) ∧
    (((dictOfDocs [⟨"T", "u1", "c1"⟩, ⟨"S", "u", "c"⟩,
        ⟨"T", "u2", "c2"⟩]).map Prod.snd).map Document.title).Nodup ∧
    (∀ d ∈ (dictOfDocs [⟨"T", "u1", "c1"⟩, ⟨"S", "u", "c"⟩,
        ⟨"T", "u2", "c2"⟩]).map Prod.snd,
      lastDocWithTitle d.title [⟨"T", "u1", "c1"⟩, ⟨"S", "u", "c"⟩,
        ⟨"T", "u2", "c2"⟩] = some d) ∧
    ((dictOfDocs [⟨"T", "u1", "c1"⟩, ⟨"S", "u", "c"⟩,
        ⟨"T", "u2", "c2"⟩]).map Prod.snd).map Document.title
      = firstSeenTitles ([⟨"T", "u1", "c1"⟩, ⟨"S", "u", "c"⟩,
          ⟨"T", "u2", "c2"⟩].map Document.title) :=
  retrieve_documents_dedup _ ["q1", "q2"]
    [⟨"T", "u1", "c1"⟩, ⟨"S", "u", "c"⟩, ⟨"T", "u2", "c2"⟩] rfl

theorem tier2Result_eq_append (raw : List Document) (u reply : String)
    (retr : String → Except Unit (List Document)) :
    tier2Result raw u reply retr
      = tier1Survivors raw reply ++ tier2Additions raw u reply retr := by
  obtain ⟨x, hx⟩ := tier1Survivors_pre raw u reply retr
  unfold tier2Additions
  rw [← hx, List.drop_left]

/-- Claim C6: every successful output of `filter_documents` has length at
most five, and on a non-empty input with a successful bouncer reply the
output is exactly the Tier-1 survivors in their original input order
followed by the Tier-2 additions, truncated to the first five
documents. -/
theorem filter_documents_shape (raw : List Document) (u : String)
    (llm : String → Except Unit String)
    (retr : String → Except Unit (List Document)) :
    (∀ out, filter_documents raw u llm retr = Except.ok out → out.length ≤ 5) ∧
    (raw ≠ [] → ∀ reply, llm (bouncerPrompt raw u) = Except.ok reply →
      filter_documents raw u llm retr
        = Except.ok ((tier1Survivors raw reply
            ++ tier2Additions raw u reply retr).take 5)) := by
  constructor
  · intro out hout
    unfold filter_documents at hout
    by_cases hraw : raw = []
    · rw [if_pos hraw] at hout
      injection hout with h
      rw [← h]
      simp
    · rw [if_neg hraw] at hout
      cases hllm : llm (bouncerPrompt raw u) with
      | error e =>
        rw [hllm] at hout
        exact absurd hout (by simp)
      | ok reply =>
        rw [hllm] at hout
        have hout' : (if (tier2Result raw u reply retr).take 5 = [] then Except.ok []
            else Except.ok ((tier2Result raw u reply retr).take 5))
            = Except.ok out := hout
        by_cases hemp : (tier2Result raw u reply retr).take 5 = []
        · rw [if_pos hemp] at hout'
          injection hout' with h
          rw [← h]
          simp
        · rw [if_neg hemp] at hout'
          injection hout' with h
          rw [← h, List.length_take]
          exact min_le_left 5 _
  · intro hraw reply hllm
    unfold filter_documents
    rw [if_neg hraw, hllm]
    show (if (tier2Result raw u reply retr).take 5 = [] then Except.ok []
      else Except.ok ((tier2Result raw u reply retr).take 5)) = _
    rw [← tier2Result_eq_append]
    by_cases hemp : (tier2Result raw u reply retr).take 5 = []
    · rw [if_pos hemp, hemp]
    · rw [if_neg hemp]

/-- Witness for `filter_documents_shape`. -/
theorem filter_documents_shape_witness :
    ([(⟨"T", "u", "c"⟩ : Document)] : List Document).length ≤ 5 ∧
      filter_documents [⟨"T", "u", "c"⟩] "t" (fun _ => Except.ok "T")
          (fun _ => Except.error ())
        = Except.ok ((tier1Survivors [⟨"T", "u", "c"⟩] "T"
            ++ tier2Additions [⟨"T", "u", "c"⟩] "t" "T"
              (fun _ => Except.error ())).take 5) :=
  ⟨(filter_documents_shape [⟨"T", "u", "c"⟩] "t" (fun _ => Except.ok "T")
      (fun _ => Except.error ())).1 [⟨"T", "u", "c"⟩] rfl,
    (filter_documents_shape [⟨"T", "u", "c"⟩] "t" (fun _ => Except.ok "T")
      (fun _ => Except.error ())).2 (by decide) "T" rfl⟩

/-- Claim C8, counterexample: with two input documents sharing the title
`T` and the Oracle echoing the titles `T,T`, both documents pass the
Tier-1 substring match but only the first is retained (the Tier-1 dedup
drops the second), refuting "every input document ... is retained". -/
theorem c8_counterexample :
    filter_documents [⟨"T", "u1", "c1"⟩, ⟨"T", "u2", "c2"⟩] "tea"
        (fun _ => Except.ok (echoTitles [⟨"T", "u1", "c1"⟩, ⟨"T", "u2", "c2"⟩]))
        (fun _ => Except.error ())
      = Except.ok [⟨"T", "u1", "c1"⟩] ∧
      (⟨"T", "u2", "c2"⟩ : Document) ≠ ⟨"T", "u1", "c1"⟩ :=
  ⟨rfl, by decide⟩

/-- Claim C8, amended: for a non-empty document collection with pairwise
distinct titles (commas in titles allowed), if the Oracle reply echoes
back exactly the input titles joined by commas, then every input
document passes the Tier-1 substring match (`tier1Kept` keeps all of
them) and every input document is retained before the final truncation
to five (`tier1Survivors` equals the input): each comma fragment of the
echoed reply is a contiguous piece of the title it came from, so after
stripping and lowercasing it is a substring of that title. -/
theorem tier1_echo_retains_all (raw : List Document)
    (hne : raw ≠ [])
    (hnd : (raw.map Document.title).Nodup) :
    tier1Kept raw (echoTitles raw) = raw ∧
      tier1Survivors raw (echoTitles raw) = raw := by
  have hsplit : pySplitOn ',' (echoTitles raw)
      = ((raw.map (fun d => d.title.toList)).flatMap (fun l => l.splitOn ',')).map
          String.mk := by
    unfold pySplitOn echoTitles
    rw [show (String.mk (List.intercalate [','] (raw.map fun d => d.title.toList))).toList
        = List.intercalate [','] (raw.map fun d => d.title.toList) from rfl]
    rw [intercalate_splitOn_flatMap ',' (raw.map fun d => d.title.toList)
      (by
        intro h0
        exact hne (List.map_eq_nil_iff.mp h0))]
  have hkept : tier1Kept raw (echoTitles raw) = raw := by
    unfold tier1Kept
    rw [List.filter_eq_self]
    intro d hd
    rw [List.any_eq_true]
    obtain ⟨h, t, hht⟩ := List.exists_cons_of_ne_nil
      (List.splitOnP_ne_nil (fun x => x == ',') d.title.toList)
    have hht' : d.title.toList.splitOn ',' = h :: t := hht
    refine ⟨pyLower (pyStrip (String.mk h)), ?_, ?_⟩
    · unfold verifiedTitles
      apply List.mem_map_of_mem
      rw [hsplit]
      apply List.mem_map_of_mem
      rw [List.mem_flatMap]
      refine ⟨d.title.toList, List.mem_map_of_mem _ hd, ?_⟩
      rw [hht']
      exact List.mem_cons_self h t
    · rw [pySubstr, infixCheck_correct]
      show (stripList Char.isWhitespace h).map Char.toLower
        <:+: d.title.toList.map Char.toLower
      have h1 : stripList Char.isWhitespace h <:+: h := stripList_contig _ h
      have h2 : h <+: d.title.toList := splitOn_head_pre ',' d.title.toList h t hht'
      exact (h1.trans h2.isInfix).map Char.toLower
  refine ⟨hkept, ?_⟩
  unfold tier1Survivors
  rw [hkept]
  exact dedupFirst_of_nodup raw hnd

/-- Witness for `tier1_echo_retains_all`, on a title containing a
comma. -/
theorem tier1_echo_retains_all_witness :
    tier1Kept [(⟨"Tea, green", "u", "c"⟩ : Document)]
        (echoTitles [⟨"Tea, green", "u", "c"⟩]) = [⟨"Tea, green", "u", "c"⟩] ∧
      tier1Survivors [(⟨"Tea, green", "u", "c"⟩ : Document)]
        (echoTitles [⟨"Tea, green", "u", "c"⟩]) = [⟨"Tea, green", "u", "c"⟩] :=
  tier1_echo_retains_all [⟨"Tea, green", "u", "c"⟩] (by decide) (by decide)

theorem sourcesLoop_length (llm : String → Except Unit String) :
    ∀ (docs : List Document) (i : Nat),
      ((sourcesLoop llm i docs).2).length = docs.length
  | [], _ => rfl
  | d :: ds, i => by
    simp only [sourcesLoop, List.length_cons]
    rw [sourcesLoop_length llm ds (i + 1)]

theorem sourcesLoop_get (llm : String → Except Unit String) :
    ∀ (docs : List Document) (i k : Nat) (d : Document), docs[k]? = some d →
      ((sourcesLoop llm i docs).2)[k]?
        = some ⟨i + k, d.title, d.source, figureBlock llm d⟩ := by
  intro docs
  induction docs with
  | nil =>
    intro i k d h
    simp at h
  | cons d0 ds ih =>
    intro i k d h
    cases k with
    | zero =>
      have hd : d0 = d := by simpa using h
      simp only [sourcesLoop]
      rw [← hd]
      simp
    | succ k' =>
      simp only [sourcesLoop]
      have hh : ds[k']? = some d := by simpa using h
      have := ih (i + 1) k' d hh
      simp only [List.getElem?_cons]
      rw [if_neg (by omega : ¬(k' + 1 = 0))]
      simp only [Nat.add_sub_cancel]
      rw [this]
      have harith : i + 1 + k' = i + (k' + 1) := by omega
      rw [harith]

/-- Claim C9: if the figure-extraction Oracle call raises for the `k`-th
filtered document, the per-source loop still completes: it produces one
`SourceRecord` per document, the `k`-th record carries that document's
title with the literal `"None"` figure sentinel, and (whenever the final
report call succeeds) `generate_report` returns without raising. -/
theorem generate_report_figure_sentinel (docs : List Document) (u : String)
    (llm : String → Except Unit String) (k : Nat) (d : Document)
    (hk : docs[k]? = some d)
    (hfail : llm (perSourcePrompt (pyTakeChars 1500 d.page_content))
      = Except.error ()) :
    ((sourcesLoop llm 1 docs).2).length = docs.length ∧
    ((sourcesLoop llm 1 docs).2)[k]? = some ⟨1 + k, d.title, d.source, "None"⟩ ∧
    (∀ rep, llm (reportPrompt u (sourcesLoop llm 1 docs).1
        (financialText (sourcesLoop llm 1 docs).2)) = Except.ok rep →
      generate_report docs u llm
        = Except.ok (rep, (sourcesLoop llm 1 docs).2,
            financialText (sourcesLoop llm 1 docs).2)) := by
  refine ⟨sourcesLoop_length llm docs 1, ?_, ?_⟩
  · rw [sourcesLoop_get llm docs 1 k d hk]
    unfold figureBlock
    rw [hfail]
  · intro rep hrep
    unfold generate_report
    rw [hrep]

/-- Witness for `generate_report_figure_sentinel`: two documents, the
Oracle raising exactly on the second document's extraction prompt. -/
theorem generate_report_figure_sentinel_witness :
    ((sourcesLoop
        (fun p => if p = perSourcePrompt (pyTakeChars 1500 "cb") then Except.error ()
          else Except.ok "ok") 1
        [⟨"A", "ua", "ca"⟩, ⟨"B", "ub", "cb"⟩]).2)[1]?
      = some ⟨1 + 1, "B", "ub", "None"⟩ ∧
    generate_report [⟨"A", "ua", "ca"⟩, ⟨"B", "ub", "cb"⟩] "tea"
        (fun p => if p = perSourcePrompt (pyTakeChars 1500 "cb") then Except.error ()
          else Except.ok "ok")
      = Except.ok ("ok",
          (sourcesLoop
            (fun p => if p = perSourcePrompt (pyTakeChars 1500 "cb") then Except.error ()
              else Except.ok "ok") 1 [⟨"A", "ua", "ca"⟩, ⟨"B", "ub", "cb"⟩]).2,
          financialText
            (sourcesLoop
              (fun p => if p = perSourcePrompt (pyTakeChars 1500 "cb") then Except.error ()
                else Except.ok "ok") 1 [⟨"A", "ua", "ca"⟩, ⟨"B", "ub", "cb"⟩]).2) :=
  ⟨(generate_report_figure_sentinel [⟨"A", "ua", "ca"⟩, ⟨"B", "ub", "cb"⟩] "tea"
      _ 1 ⟨"B", "ub", "cb"⟩ rfl rfl).2.1,
    (generate_report_figure_sentinel [⟨"A", "ua", "ca"⟩, ⟨"B", "ub", "cb"⟩] "tea"
      _ 1 ⟨"B", "ub", "cb"⟩ rfl rfl).2.2 "ok" rfl⟩

/-- Claim C10, counterexample: with one input document and an empty
bouncer reply, every document passes Tier 1, but fewer than five
survivors trigger the Tier-2 expansion, which appends a retrieved
document that is not among the input documents: the output is not "the
first five input documents". -/
theorem c10_counterexample :
    filter_documents [⟨"T", "u", "c"⟩] "t" (fun _ => Except.ok "")
        (fun _ => Except.ok [⟨"tx", "u2", "c2"⟩])
      = Except.ok [⟨"T", "u", "c"⟩, ⟨"tx", "u2", "c2"⟩] ∧
      ([(⟨"T", "u", "c"⟩ : Document), ⟨"tx", "u2", "c2"⟩] : List Document)
        ≠ List.take 5 [⟨"T", "u", "c"⟩] :=
  ⟨rfl, by decide⟩

/-- Claim C10, amended: if the bouncer reply contains a comma-separated
fragment that is empty after trimming (an empty reply, a trailing comma,
or two adjacent commas), then every input document passes the Tier-1
substring match (the empty fragment is a substring of every title); if
moreover the collection has at least five documents and the titles of its
first five are pairwise distinct, `filter_documents` returns exactly the
first five input documents regardless of their relevance (with fewer than
five survivors, Tier-2 expansion may append further documents). -/
theorem filter_documents_empty_fragment (raw : List Document) (u reply : String)
    (llm : String → Except Unit String)
    (retr : String → Except Unit (List Document))
    (hfrag : ∃ t ∈ pySplitOn ',' reply, pyStrip t = "") :
    tier1Kept raw reply = raw ∧
    (llm (bouncerPrompt raw u) = Except.ok reply → 5 ≤ raw.length →
      ((raw.take 5).map Document.title).Nodup →
      filter_documents raw u llm retr = Except.ok (raw.take 5)) := by
  have hkept : tier1Kept raw reply = raw := by
    unfold tier1Kept
    rw [List.filter_eq_self]
    intro d hd
    rw [List.any_eq_true]
    obtain ⟨t, ht, hts⟩ := hfrag
    refine ⟨pyLower (pyStrip t), ?_, ?_⟩
    · unfold verifiedTitles
      exact List.mem_map_of_mem _ ht
    · rw [hts, show pyLower "" = "" from rfl]
      exact substr_empty _
  refine ⟨hkept, ?_⟩
  intro hllm hlen hnd
  have hne : raw ≠ [] := by
    intro h
    rw [h] at hlen
    simp at hlen
  have hsurv5 := dedupFirst_take_five raw hlen hnd
  have hsurv : tier1Survivors raw reply = dedupFirstByTitle raw := by
    unfold tier1Survivors
    rw [hkept]
  have ht2 : tier2Result raw u reply retr = dedupFirstByTitle raw := by
    unfold tier2Result
    rw [hsurv, if_neg (by omega : ¬(dedupFirstByTitle raw).length < 5)]
  unfold filter_documents
  rw [if_neg hne, hllm]
  show (if (tier2Result raw u reply retr).take 5 = [] then Except.ok []
    else Except.ok ((tier2Result raw u reply retr).take 5)) = _
  rw [ht2, hsurv5.1]
  have htk5 : raw.take 5 ≠ [] := by
    intro hc
    have h5 : (raw.take 5).length = 5 := by
      rw [List.length_take]
      exact Nat.min_eq_left hlen
    rw [hc] at h5
    simp at h5
  rw [if_neg htk5]

/-- Witness for `filter_documents_empty_fragment`: five distinct-titled
documents and an empty bouncer reply. -/
theorem filter_documents_empty_fragment_witness :
    tier1Kept [(⟨"A", "u", "c"⟩ : Document), ⟨"B", "u", "c"⟩, ⟨"C", "u", "c"⟩,
        ⟨"D", "u", "c"⟩, ⟨"E", "u", "c"⟩] "" =
      [⟨"A", "u", "c"⟩, ⟨"B", "u", "c"⟩, ⟨"C", "u", "c"⟩,
        ⟨"D", "u", "c"⟩, ⟨"E", "u", "c"⟩] ∧
    filter_documents [⟨"A", "u", "c"⟩, ⟨"B", "u", "c"⟩, ⟨"C", "u", "c"⟩,
        ⟨"D", "u", "c"⟩, ⟨"E", "u", "c"⟩] "t" (fun _ => Except.ok "")
        (fun _ => Except.error ())
      = Except.ok (List.take 5 [⟨"A", "u", "c"⟩, ⟨"B", "u", "c"⟩, ⟨"C", "u", "c"⟩,
          ⟨"D", "u", "c"⟩, ⟨"E", "u", "c"⟩]) :=
  ⟨(filter_documents_empty_fragment [⟨"A", "u", "c"⟩, ⟨"B", "u", "c"⟩,
      ⟨"C", "u", "c"⟩, ⟨"D", "u", "c"⟩, ⟨"E", "u", "c"⟩] "t" ""
      (fun _ => Except.ok "") (fun _ => Except.error ())
      ⟨"", by decide, by decide⟩).1,
    (filter_documents_empty_fragment [⟨"A", "u", "c"⟩, ⟨"B", "u", "c"⟩,
      ⟨"C", "u", "c"⟩, ⟨"D", "u", "c"⟩, ⟨"E", "u", "c"⟩] "t" ""
      (fun _ => Except.ok "") (fun _ => Except.error ())
      ⟨"", by decide, by decide⟩).2 rfl (by decide) (by decide)⟩

end AppPy

namespace AppPy

/-! ## Sanity examples (concrete evaluations of the embedding) -/

example : pyStrip "  a b\t" = "a b" := by decide
example : pySplitWs "  VALID  yes " = ["VALID", "yes"] := by decide
example : validate_industry "VALID" = Except.ok (true, "", []) := rfl
example : validate_industry "" = Except.error () := rfl
example : validate_industry "valid" = Except.ok (true, "", []) := rfl
example :
    validate_industry "NO\nINVALID - Not business-related\nSUGGESTIONS: a, b" =
      Except.ok (false, "Not businessrelated", ["a", "b"]) := rfl
example : generate_queries "QUERIES:\n- tea market\n- tea industry" =
    ["tea market", "tea industry"] := by decide
example : generate_queries "-" = [""] := by decide
example : generate_queries "-\t- tea" = ["- tea"] := by decide

example :
    retrieve_documents
      (fun q => if q = "a" then Except.ok [⟨"T", "u1", "c1"⟩, ⟨"S", "u", "c"⟩]
        else Except.ok [⟨"T", "u2", "c2"⟩])
      ["a", "b"] =
    Except.ok [⟨"T", "u2", "c2"⟩, ⟨"S", "u", "c"⟩] := rfl

example :
    retrieve_documents
      (fun q => if q = "a" then Except.error () else Except.ok [⟨"B", "u", "c"⟩])
      ["a", "b"] = Except.error () := rfl

example :
    filter_documents [⟨"Tea", "u", "c"⟩, ⟨"Tea", "u2", "c2"⟩] "tea"
      (fun _ => Except.ok "Tea,Tea") (fun _ => Except.error ()) =
    Except.ok [⟨"Tea", "u", "c"⟩] := rfl

example :
    filter_documents [⟨"T", "u", "c"⟩] "t"
      (fun _ => Except.ok "") (fun _ => Except.ok [⟨"tx", "u2", "c2"⟩]) =
    Except.ok [⟨"T", "u", "c"⟩, ⟨"tx", "u2", "c2"⟩] := rfl

example : filter_documents [] "t" (fun _ => Except.error ()) (fun _ => Except.error ()) =
    Except.ok [] := rfl

example :
    (generate_report [⟨"A", "ua", "ca"⟩, ⟨"B", "ub", "cb"⟩] "tea"
      (fun p => if p = perSourcePrompt (pyTakeChars 1500 "cb") then Except.error ()
        else Except.ok "ok")).map (fun r => r.2.1.map SourceRecord.figures) =
    Except.ok ["ok", "None"] := rfl

end AppPy
